import Mathlib

/-
Shallow embedding of the pydeployhelp deploy pipeline
(src/pydeployhelp/deploy.py, src/pydeployhelp/base.py, src/pydeployhelp/utils.py).

External collaborators (typer prompts and colorized output, ruamel YAML
parsing, jinja2 rendering, python-dotenv parsing, the filesystem and
subprocesses) are abstracted at their interface boundary: a `World`
structure supplies the parse results of the input files and the
behaviour of the external oracles (`os.system` exit codes, chmod and
unlink success), and every operator-visible action is recorded in an
explicit `Event` trace.  Python `dict`s are modelled as
insertion-ordered association lists.
-/

namespace PyDeployHelp

/- ============ Python string primitives ============ -/

/-
All string operations are implemented over `List Char` by structural
recursion (rather than through the well-founded-recursion string
functions of core Lean) so that every definition evaluates by `decide`
on concrete inputs.
-/

/-- The whitespace characters stripped by Python's `str.strip()`. -/
def pythonWhitespace (c : Char) : Bool :=
  c == ' ' || c == '\t' || c == '\n' || c == '\r' || c == '\x0b' || c == '\x0c'

/-- `str.strip(chars)`: drop leading and trailing characters satisfying `p`. -/
def pyStripChars (p : Char → Bool) (s : String) : String :=
  String.mk (((s.toList.dropWhile p).reverse.dropWhile p).reverse)

/-- Python `str.strip()` (no arguments): strip surrounding whitespace. -/
def pyStrip (s : String) : String :=
  pyStripChars pythonWhitespace s

/-- The two quote characters of `str.strip('\x27"')` in `read_env_file`
(39 is the code of the single-quote character). -/
def isQuoteChar (c : Char) : Bool :=
  c == '"' || c.toNat == 39

/-- `str.strip('\x27"')`: strip any number of surrounding quote characters. -/
def pyStripQuotes (s : String) : String :=
  pyStripChars isQuoteChar s

/-- ASCII lowercasing of one character (what `str.lower()` does on the
inputs relevant here). -/
def toLowerChar (c : Char) : Char :=
  if 65 ≤ c.toNat && c.toNat ≤ 90 then Char.ofNat (c.toNat + 32) else c

/-- Python `str.lower()` (ASCII fragment). -/
def pyToLower (s : String) : String :=
  String.mk (s.toList.map toLowerChar)

/-- Whether the string contains the character (`c in s`). -/
def pyContainsChar (s : String) (c : Char) : Bool :=
  s.toList.contains c

/-- Whether the string starts with the character (`s.startswith(c)`). -/
def pyStartsWithChar (s : String) (c : Char) : Bool :=
  match s.toList with
  | [] => false
  | a :: _ => a == c

/-- Replace every occurrence of one character by another
(`s.replace(old, new)` for single characters). -/
def pyReplaceChar (s : String) (old new : Char) : String :=
  String.mk (s.toList.map (fun c => if c == old then new else c))

/-- Helper of `pySplitChar`: accumulate the current piece (reversed). -/
def splitCharAux (sep : Char) : List Char → List Char → List (List Char)
  | [], acc => [acc.reverse]
  | c :: restChars, acc =>
    if c == sep then acc.reverse :: splitCharAux sep restChars []
    else splitCharAux sep restChars (c :: acc)

/-- Python `s.split(sep)` for a one-character separator: pieces between
occurrences, empty pieces kept, never an empty result list. -/
def pySplitChar (s : String) (sep : Char) : List String :=
  (splitCharAux sep s.toList []).map String.mk

/-- Python `sep.join(parts)` for a one-character separator. -/
def pyJoinChar (sep : Char) : List String → String
  | [] => ""
  | [s] => s
  | s :: restParts => s ++ String.mk [sep] ++ pyJoinChar sep restParts

/-- Helper of `pySplitWhitespace`: accumulate the current token
(reversed), emitting it at each whitespace run or at the end. -/
def splitWsAux : List Char → List Char → List (List Char)
  | [], acc => if acc.isEmpty then [] else [acc.reverse]
  | c :: restChars, acc =>
    if pythonWhitespace c then
      if acc.isEmpty then splitWsAux restChars []
      else acc.reverse :: splitWsAux restChars []
    else splitWsAux restChars (c :: acc)

/-- Python `str.split()` with no separator: split on whitespace runs,
discarding empty pieces. -/
def pySplitWhitespace (s : String) : List String :=
  (splitWsAux s.toList []).map String.mk

/-- Decidable equality for `Except`, used to evaluate outcomes on
concrete inputs. -/
instance {ε α : Type} [DecidableEq ε] [DecidableEq α] :
    DecidableEq (Except ε α) := fun x y =>
  match x, y with
  | Except.ok a, Except.ok b =>
    if h : a = b then isTrue (by rw [h])
    else isFalse (fun hh => by cases hh; exact h rfl)
  | Except.ok _, Except.error _ => isFalse (fun hh => by cases hh)
  | Except.error _, Except.ok _ => isFalse (fun hh => by cases hh)
  | Except.error a, Except.error b =>
    if h : a = b then isTrue (by rw [h])
    else isFalse (fun hh => by cases hh; exact h rfl)

/- ============ Python dict as ordered association list ============ -/

/-- `d.get(k)` on a Python dict modelled as an association list. -/
def dictGet? {α : Type} (d : List (String × α)) (k : String) : Option α :=
  (d.find? (fun p => p.1 == k)).map Prod.snd

/-- `d[k] = v` on a Python dict: overwrite in place if the key exists
(keeping insertion order), append otherwise. -/
def dictUpsert {α : Type} (d : List (String × α)) (k : String) (v : α) :
    List (String × α) :=
  if d.any (fun p => p.1 == k) then
    d.map (fun p => if p.1 == k then (k, v) else p)
  else d ++ [(k, v)]

/- ============ utils.py ============ -/

/-- A value stored by `read_env_file`: the string from the line, or a
coerced boolean. -/
inductive EnvVal
  | str (s : String)
  | bool (b : Bool)
deriving DecidableEq

/-- `BOOL_MAPPING = {'false': False, 'true': True}` (utils.py line 4). -/
def BOOL_MAPPING : List (String × Bool) := [("false", false), ("true", true)]

/-- `'='.join(line_args[1:]).strip()`: the raw value text after the first
`=`, whitespace-stripped but before quote stripping. -/
def rawJoined (line_args : List String) : String :=
  pyStrip (pyJoinChar '=' (line_args.drop 1))

/-- The fully processed value text of an env line:
`'='.join(line_args[1:]).strip().strip('\x27"')`. -/
def parsedValueString (line_args : List String) : String :=
  pyStripQuotes (rawJoined line_args)

/-- One iteration of the `read_env_file` loop (utils.py lines 13-28):
`none` when the line is a comment or has no `=`, otherwise the
key/value pair that is stored.  The `line_args_num == 1` branch of the
source is kept although a line that contains `=` always splits into at
least two parts. -/
def parseLine? (rawLine : String) : Option (String × EnvVal) :=
  let line := pyStrip rawLine
  if pyStartsWithChar line '#' || !(pyContainsChar line '=') then none
  else
    let line_args := pySplitChar line '='
    if line_args.length == 1 then
      some (pyStrip (line_args.headD ""), EnvVal.str "")
    else
      let value := parsedValueString line_args
      let coerced :=
        match dictGet? BOOL_MAPPING (pyToLower value) with
        | some b => EnvVal.bool b
        | none => EnvVal.str value
      some (pyStrip (line_args.headD ""), coerced)

/-- `read_env_file` (utils.py lines 7-30) over the list of lines of the
file: fold the per-line parse into a dict, later lines overwriting
earlier ones. -/
def read_env_file (lines : List String) : List (String × EnvVal) :=
  lines.foldl
    (fun acc l =>
      match parseLine? l with
      | none => acc
      | some (k, v) => dictUpsert acc k v)
    []

/- ============ base.py ============ -/

/-- Exceptions that can cross the boundaries modelled here.
`typerAbortExn` is `typer.Abort` (a `RuntimeError` subclass),
`interruptedErr` is `InterruptedError`, `eofErr` is the `EOFError` of
`input()` at end of input, `keyError` is the `KeyError` of
`configs.tasks[task]`, `fileNotFound` the `FileNotFoundError` of a
missing `docker` binary. -/
inductive RunExn
  | typerAbortExn
  | interruptedErr
  | eofErr
  | keyError
  | fileNotFound
deriving DecidableEq

/-- Operator-visible actions, in program order. -/
inductive Event
  | printMsg (msg : String)
  | dockerCheck (ok : Bool)
  | ask (label : String)
  | subtaskStart (name : String)
  | subtaskFinish (name : String)
  | subtaskSkip (name : String) (err : String)
  | stepEcho (idx : Nat) (cmd : String)
  | sysExec (cmd : String) (code : Int)
  | fileWrite (path : String)
  | chmodTry (path : String) (ok : Bool)
  | removeTry (path : String) (ok : Bool)
deriving DecidableEq

/-- `agreement = input(...).strip().lower() or 'yes'` (base.py line 69). -/
def agreementOf (s : String) : String :=
  let t := pyToLower (pyStrip s)
  if t == "" then "yes" else t

/-- `ABC.ask_to_continue` (base.py lines 66-78) over the pending operator
input lines.  Returns the emitted events, the remaining input lines and
the normal/exceptional outcome.  Note the source discards the result of
its recursive re-prompt, so after a recursive call that returned
normally `agree` is still `None` and `InterruptedError` is raised. -/
def ask_to_continue : List String → List Event × List String × Except RunExn Unit
  | [] => ([Event.ask "continue"], [], Except.error RunExn.eofErr)
  | s :: rest =>
    let agreement := agreementOf s
    if agreement == "yes" then ([Event.ask "continue"], rest, Except.ok ())
    else if agreement == "no" then
      ([Event.ask "continue"], rest, Except.error RunExn.interruptedErr)
    else
      let tail := ask_to_continue rest
      (Event.ask "continue" :: tail.1, tail.2.1,
        match tail.2.2 with
        | Except.error e => Except.error e
        | Except.ok _ => Except.error RunExn.interruptedErr)

/-- The interactive branch of `ABC.enter` (base.py lines 103-117),
recursing on invalid input.  Each attempt consumes one input line;
running out of input is the `EOFError` of `input()`. -/
def enterLoop (allowed_items : List String) (default : String)
    (items_name : String) :
    List String → List Event × List String × Except RunExn (List String)
  | [] => ([Event.ask items_name], [], Except.error RunExn.eofErr)
  | inp :: rest =>
    let replaced := pyStrip (pyReplaceChar inp ',' ' ')
    let user_input := if replaced == "" then default else replaced
    let items0 :=
      ((pySplitWhitespace user_input).map (fun t => pyToLower (pyStrip t))).filter
        (fun x => allowed_items.contains x || x == "all")
    if items0.isEmpty then
      let tail := enterLoop allowed_items default items_name rest
      (Event.ask items_name :: tail.1, tail.2.1, tail.2.2)
    else
      let items := if items0.contains "all" then allowed_items else items0
      ([Event.ask items_name, Event.printMsg items_name], rest, Except.ok items)

/-- `ABC.enter` (base.py lines 80-119): in silent mode return the default
(or every candidate when the default is the literal `all`) without
prompting, otherwise run the interactive loop. -/
def enter (silent : Bool) (allowed_items : List String) (default : String)
    (items_name : String) (inputs : List String) :
    List Event × List String × Except RunExn (List String) :=
  if silent then
    ([], inputs, Except.ok (if default == "all" then allowed_items else [default]))
  else
    enterLoop allowed_items default items_name inputs

/-- `ABC._remove_file` (base.py lines 58-64): attempt unlink, tolerate a
`PermissionError` with a warning. -/
def remove_file_events (path : String) (ok : Bool) : List Event :=
  Event.removeTry path ok ::
    (if ok then [] else [Event.printMsg "Unable to delete file"])

/- ============ deploy.py : data model ============ -/

/-- A fragment of a `{key}`-style command template handed to
`str.format`. -/
inductive Frag
  | lit (s : String)
  | var (k : String)
deriving DecidableEq

/-- A subtask of a task: `{title: ..., pipeline: [...]}` from
`config.yml`.  Each pipeline entry is a command template. -/
structure Subtask where
  title : String
  pipeline : List (List Frag)
deriving DecidableEq

/-- `Configs` (base.py lines 126-132): the `context` and `tasks`
mappings of `config.yml`.  Also used as the parse result of the raw
YAML document, since `load_configs` merges it into an initially empty
`Configs`. -/
structure Configs where
  context : List (String × String) := []
  tasks : List (String × List Subtask) := []
deriving DecidableEq

/-- A compose service definition: the two reference-valued fields the
filter rewrites (`none` models an absent key) plus the untouched rest
of the mapping. -/
structure Service where
  depends_on : Option (List String) := none
  links : Option (List String) := none
  rest : List (String × String) := []
deriving DecidableEq

/-- A rendered compose document: the `services` mapping plus untouched
structural siblings (`networks`, `volumes`, ...). -/
structure ComposeDoc where
  services : List (String × Service) := []
  other : List (String × String) := []
deriving DecidableEq

/-- The flags the typer CLI hands to the `Deploy` object
(deploy.py lines 20-32, 200-216): `main` turns omitted task/target
options into empty lists. -/
structure Deploy where
  tasks : List String := []
  targets : List String := []
  deploydir : String := "deploy"
  silent : Bool := false

/-- Everything the run reads from outside: whether `docker` is on the
PATH and its `version` subcommand succeeds, the parse results of the
three input files (`none` when the file does not exist), the
`os.system` exit-code oracle, and whether chmod/unlink succeed. -/
structure World where
  dockerWhich : Bool := true
  dockerRunsOk : Bool := true
  configFile : Option Configs := none
  envFileVals : Option (List (String × String)) := none
  composeRendered : Option ComposeDoc := none
  sys : String → Int := fun _ => 0
  chmodOk : Bool := true
  removeOk : Bool := true

/-- The outcome of `Deploy.start`: normal completion, an exception
caught by its `except (KeyboardInterrupt, InterruptedError,
RuntimeError)` clause, or an exception that escapes `start`. -/
inductive StartResult
  | completed
  | interrupted (ex : RunExn)
  | crashed (ex : RunExn)
deriving DecidableEq

/- ============ deploy.py : loaders ============ -/

/-- `Deploy.validate_docker_binaries` (deploy.py lines 34-50).
`shutil.which` failing raises `FileNotFoundError` (uncaught anywhere);
a failing `docker version` is caught and turned into `typer.Abort`. -/
def validate_docker_binaries (w : World) : List Event × Except RunExn Unit :=
  if !w.dockerWhich then ([], Except.error RunExn.fileNotFound)
  else if w.dockerRunsOk then ([Event.dockerCheck true], Except.ok ())
  else
    ([Event.dockerCheck false, Event.printMsg "docker is not available"],
      Except.error RunExn.typerAbortExn)

/-- The `tasks` mapping after `Deploy.load_configs` merges the parsed
document into an empty `Configs` (missing file included). -/
def mergedTasks (raw : Option Configs) : List (String × List Subtask) :=
  (raw.getD {}).tasks

/-- `Deploy.load_configs` (deploy.py lines 83-101): warn and keep the
empty `Configs` when the file is missing, merge otherwise, and raise
`typer.Abort` when the merged `tasks` mapping is empty. -/
def load_configs (raw : Option Configs) : List Event × Except RunExn Configs :=
  let warnEvs :=
    if raw.isNone then [Event.printMsg "Config file was not found, skipping"] else []
  let configs := raw.getD {}
  if configs.tasks.isEmpty then
    (warnEvs ++ [Event.printMsg "No tasks were found in configs"],
      Except.error RunExn.typerAbortExn)
  else (warnEvs, Except.ok configs)

/-- `Deploy.load_environ` (deploy.py lines 103-115): warn and use the
empty mapping when the file is missing, then inject
`environ["env"] = environ.get("ENV", "latest")`. -/
def load_environ (vals : Option (List (String × String))) :
    List Event × List (String × String) :=
  let warnEvs :=
    if vals.isNone then [Event.printMsg ".env file was not found, skipping"] else []
  let environ := vals.getD []
  (warnEvs, dictUpsert environ "env" ((dictGet? environ "ENV").getD "latest"))

/-- The `services` mapping of the rendered compose document (empty when
the template file is missing). -/
def renderedServices (raw : Option ComposeDoc) : List (String × Service) :=
  (raw.getD {}).services

/-- `Deploy.load_compose` (deploy.py lines 117-133): warn and keep the
empty document when the template is missing (jinja2 rendering and YAML
parsing of an existing template are abstracted into the
`Option ComposeDoc` input), then raise `InterruptedError` when
`compose.get("services")` is empty or absent. -/
def load_compose (raw : Option ComposeDoc) : List Event × Except RunExn ComposeDoc :=
  let warnEvs :=
    if raw.isNone then [Event.printMsg "compose file was not found, skipping"] else []
  let compose := raw.getD {}
  if compose.services.isEmpty then
    (warnEvs ++ [Event.printMsg "No services were found in docker-compose"],
      Except.error RunExn.interruptedErr)
  else (warnEvs, Except.ok compose)

/- ============ deploy.py : target selection ============ -/

/-- The candidate task names: `list(configs.tasks)`. -/
def taskNames (configs : Configs) : List String := configs.tasks.map Prod.fst

/-- The candidate target names: `list(compose["services"])`. -/
def serviceNames (compose : ComposeDoc) : List String :=
  compose.services.map Prod.fst

/-- `Deploy.enter_deploy_tasks` (deploy.py lines 135-144): a non-empty
caller-supplied task list whose entries are all candidates or the
literal `all` is returned as-is; otherwise defer to `enter` with the
first candidate as default. -/
def enter_deploy_tasks (d : Deploy) (configs : Configs) (inputs : List String) :
    List Event × List String × Except RunExn (List String) :=
  let allowed_tasks := taskNames configs
  if !d.tasks.isEmpty
      && d.tasks.all (fun el => allowed_tasks.contains el || el == "all") then
    ([], inputs, Except.ok d.tasks)
  else
    enter d.silent allowed_tasks (allowed_tasks.headD "") "deploy tasks" inputs

/-- `Deploy.enter_deploy_targets` (deploy.py lines 146-155): same
protocol with the rendered service names and default `all`. -/
def enter_deploy_targets (d : Deploy) (compose : ComposeDoc) (inputs : List String) :
    List Event × List String × Except RunExn (List String) :=
  let allowed_targets := serviceNames compose
  if !d.targets.isEmpty
      && d.targets.all (fun el => allowed_targets.contains el || el == "all") then
    ([], inputs, Except.ok d.targets)
  else
    enter d.silent allowed_targets "all" "deploy targets" inputs

/- ============ deploy.py : compose filter/writer ============ -/

/-- The inner reference rewrite of `save_environment_compose`
(deploy.py lines 166-170): a missing or empty (falsy) `depends_on` /
`links` entry is left untouched, a non-empty one is filtered against
the target set. -/
def filterRefs (deploy_targets : List String) :
    Option (List String) → Option (List String)
  | none => none
  | some [] => some []
  | some refs => some (refs.filter (fun ref => deploy_targets.contains ref))

/-- Rewrite one retained service: filter both reference lists. -/
def filterService (deploy_targets : List String) (sv : Service) : Service :=
  { sv with
    depends_on := filterRefs deploy_targets sv.depends_on
    links := filterRefs deploy_targets sv.links }

/-- The document transformation of `Deploy.save_environment_compose`
(deploy.py lines 161-172): drop services outside `deploy_targets` and
rewrite the reference lists of the retained ones. -/
def save_environment_compose_doc (compose : ComposeDoc)
    (deploy_targets : List String) : ComposeDoc :=
  { compose with
    services :=
      compose.services.filterMap (fun p =>
        if deploy_targets.contains p.1 then
          some (p.1, filterService deploy_targets p.2)
        else none) }

/-- The artifact path `f"{self.deploydir}/docker-compose-{env}.yml"`. -/
def composeArtifact (deploydir env : String) : String :=
  deploydir ++ "/docker-compose-" ++ env ++ ".yml"

/-- `Deploy.save_environment_compose` (deploy.py lines 157-180) as an
effectful step: the write event, the `_add_permissions` attempt (a
`PermissionError` is tolerated with a warning), the filtered document
and the written path. -/
def save_environment_compose (d : Deploy) (w : World) (compose : ComposeDoc)
    (deploy_targets : List String) (env : String) :
    List Event × ComposeDoc × String :=
  let path := composeArtifact d.deploydir env
  (Event.fileWrite path :: Event.chmodTry path w.chmodOk ::
      (if w.chmodOk then [] else [Event.printMsg "Unable to change permissions"]),
    save_environment_compose_doc compose deploy_targets, path)

/- ============ deploy.py : pipeline executor ============ -/

/-- `pipe.format(**environ)` on a command template: a placeholder whose
key is missing from the environment mapping raises `KeyError` (the
error payload is the missing key). -/
def interpolate (environ : List (String × String)) : List Frag → Except String String
  | [] => Except.ok ""
  | Frag.lit s :: rest => (interpolate environ rest).map (fun r => s ++ r)
  | Frag.var k :: rest =>
    match dictGet? environ k with
    | none => Except.error k
    | some v => (interpolate environ rest).map (fun r => v ++ r)

/-- Whether interpolating a template succeeds. -/
def interpolateOk (environ : List (String × String)) (pipe : List Frag) : Bool :=
  match interpolate environ pipe with
  | Except.ok _ => true
  | Except.error _ => false

/-- The inner step loop of `Deploy.execute_pipeline` (deploy.py lines
190-193): interpolate, echo the 1-based step, run `os.system` (whose
exit code is observed but never raised), and stop at the first
interpolation error, whose message is returned. -/
def runSteps (environ : List (String × String)) (sys : String → Int) :
    List (List Frag) → Nat → List Event × Option String
  | [], _ => ([], none)
  | pipe :: restSteps, i =>
    match interpolate environ pipe with
    | Except.error e => ([], some e)
    | Except.ok command =>
      let tail := runSteps environ sys restSteps (i + 1)
      (Event.stepEcho (i + 1) command :: Event.sysExec command (sys command) :: tail.1,
        tail.2)

/-- The reported name `f"{task}/{subtask['title']}"`. -/
def subtaskName (task : String) (st : Subtask) : String :=
  task ++ "/" ++ st.title

/-- One subtask of `Deploy.execute_pipeline` (deploy.py lines 186-197):
report start, run the steps inside `try`, and report `Skipping` (with
the caught error) or `Finished`. -/
def runSubtask (environ : List (String × String)) (sys : String → Int)
    (task : String) (st : Subtask) : List Event :=
  let run := runSteps environ sys st.pipeline 0
  Event.subtaskStart (subtaskName task st) ::
    run.1 ++
      match run.2 with
      | some e => [Event.subtaskSkip (subtaskName task st) e]
      | none => [Event.subtaskFinish (subtaskName task st)]

/-- `Deploy.execute_pipeline` (deploy.py lines 182-197): iterate the
selected tasks in order; `configs.tasks[task]` raises `KeyError` when
the task name is not a key (that exception is not caught anywhere). -/
def execute_pipeline (configs : Configs) (environ : List (String × String))
    (sys : String → Int) : List String → List Event × Except RunExn Unit
  | [] => ([], Except.ok ())
  | task :: rest =>
    match dictGet? configs.tasks task with
    | none => ([], Except.error RunExn.keyError)
    | some subtasks =>
      let evs := (subtasks.map (runSubtask environ sys task)).flatten
      let tail := execute_pipeline configs environ sys rest
      (evs ++ tail.1, tail.2)

/- ============ deploy.py : run controller ============ -/

/-- Which exceptions `Deploy.start`'s
`except (KeyboardInterrupt, InterruptedError, RuntimeError)` clause
catches: `InterruptedError`, and `typer.Abort` because `click.Abort`
subclasses `RuntimeError`. -/
def caughtByStart : RunExn → Bool
  | RunExn.interruptedErr => true
  | RunExn.typerAbortExn => true
  | _ => false

/-- Route an exception raised inside `start`'s `try` block: caught ones
print the red `Finished deploy` message, others escape `start`. -/
def startCatch (evs : List Event) (ex : RunExn) : List Event × StartResult :=
  if caughtByStart ex then
    (evs ++ [Event.printMsg "Finished deploy"], StartResult.interrupted ex)
  else (evs, StartResult.crashed ex)

/-- The conditional confirmation gate of `start` (deploy.py lines
69-70): ask only when the resolved selections differ from the caller
flags. -/
def runGate (cond : Bool) (ins : List String) :
    List Event × List String × Except RunExn Unit :=
  if cond then ask_to_continue ins else ([], ins, Except.ok ())

/-- `Deploy.start` (deploy.py lines 52-81): the whole run controller
over a `World` and the pending operator input lines.  The `else` branch
of the `try` (write, pipeline, cleanup, success message) runs outside
the exception handler, so a `KeyError` escaping `execute_pipeline`
crashes the run after the write and before the cleanup. -/
def start (d : Deploy) (w : World) (inputs : List String) :
    List Event × StartResult :=
  let ev0 := [Event.printMsg "Started deploy"]
  match validate_docker_binaries w with
  | (e1, Except.error ex) => startCatch (ev0 ++ e1) ex
  | (e1, Except.ok _) =>
    match load_configs w.configFile with
    | (e2, Except.error ex) => startCatch (ev0 ++ e1 ++ e2) ex
    | (e2, Except.ok configs) =>
      let envLoad := load_environ w.envFileVals
      match load_compose w.composeRendered with
      | (e4, Except.error ex) =>
        startCatch (ev0 ++ e1 ++ e2 ++ envLoad.1 ++ e4) ex
      | (e4, Except.ok compose) =>
        match enter_deploy_tasks d configs inputs with
        | (e5, _, Except.error ex) =>
          startCatch (ev0 ++ e1 ++ e2 ++ envLoad.1 ++ e4 ++ e5) ex
        | (e5, ins5, Except.ok deploy_tasks) =>
          match enter_deploy_targets d compose ins5 with
          | (e6, _, Except.error ex) =>
            startCatch (ev0 ++ e1 ++ e2 ++ envLoad.1 ++ e4 ++ e5 ++ e6) ex
          | (e6, ins6, Except.ok deploy_targets) =>
            match runGate
                (deploy_tasks != d.tasks || deploy_targets != d.targets) ins6 with
            | (e7, _, Except.error ex) =>
              startCatch (ev0 ++ e1 ++ e2 ++ envLoad.1 ++ e4 ++ e5 ++ e6 ++ e7) ex
            | (e7, _, Except.ok _) =>
              let environ := envLoad.2
              let env := (dictGet? environ "env").getD "latest"
              let saved := save_environment_compose d w compose deploy_targets env
              let pre := ev0 ++ e1 ++ e2 ++ envLoad.1 ++ e4 ++ e5 ++ e6 ++ e7 ++ saved.1
              match execute_pipeline configs environ w.sys deploy_tasks with
              | (e9, Except.error ex) => (pre ++ e9, StartResult.crashed ex)
              | (e9, Except.ok _) =>
                (pre ++ e9 ++ remove_file_events saved.2.2 w.removeOk ++
                    [Event.printMsg "Finished deploy, with processing time"],
                  StartResult.completed)

/-- The artifact path a run of `start d w _` writes: the environment
variant is the `ENV` value of the parsed env file, default `latest`. -/
def artifactPath (d : Deploy) (w : World) : String :=
  composeArtifact d.deploydir
    ((dictGet? (w.envFileVals.getD []) "ENV").getD "latest")

/- ============ event classifiers ============ -/

/-- Events that are operator interaction (`input()` prompts). -/
def isInteractionEv : Event → Bool
  | Event.ask _ => true
  | _ => false

/-- Events that are deploy side effects: file writes, permission
changes, removal attempts and executed pipeline commands.  The
read-only `docker version` precheck is not counted. -/
def isSideEffectEv : Event → Bool
  | Event.fileWrite _ => true
  | Event.chmodTry _ _ => true
  | Event.removeTry _ _ => true
  | Event.sysExec _ _ => true
  | _ => false

/-- File-write events. -/
def isWriteEv : Event → Bool
  | Event.fileWrite _ => true
  | _ => false

/-- Removal-attempt events. -/
def isRemoveEv : Event → Bool
  | Event.removeTry _ _ => true
  | _ => false

/-- Skip reports. -/
def isSkipEv : Event → Bool
  | Event.subtaskSkip _ _ => true
  | _ => false

/-- Executed-command events. -/
def isExecEv : Event → Bool
  | Event.sysExec _ _ => true
  | _ => false

/-- Forget the exit code of an executed command, keeping everything
else of an event. -/
def eraseCode : Event → Event
  | Event.sysExec cmd _ => Event.sysExec cmd 0
  | e => e

/-- The references of an optional reference list. -/
def refList : Option (List String) → List String
  | none => []
  | some refs => refs

/-- Whether every `depends_on` / `links` reference of a service lies in
the target set. -/
def serviceRefsOk (deploy_targets : List String) (sv : Service) : Bool :=
  (refList sv.depends_on).all (fun ref => deploy_targets.contains ref) &&
    (refList sv.links).all (fun ref => deploy_targets.contains ref)

/- ============ shared lemmas ============ -/

theorem dictGet?_dictUpsert_self {α : Type} (d : List (String × α)) (k : String)
    (v : α) : dictGet? (dictUpsert d k v) k = some v := by
  unfold dictUpsert
  by_cases h : d.any (fun p => p.1 == k) = true
  · simp only [h, if_true]
    induction d with
    | nil => simp at h
    | cons p restPairs ih =>
      by_cases hp : p.1 == k
      · simp [dictGet?, List.find?, hp]
      · simp only [List.any_cons, hp, Bool.false_or] at h
        simpa [dictGet?, List.find?, hp] using ih h
  · simp only [h]
    rw [if_neg (by simp [h])]
    have hnone : d.find? (fun p => p.1 == k) = none := by
      rw [List.find?_eq_none]
      intro p hp hcontra
      exact h (List.any_eq_true.mpr ⟨p, hp, hcontra⟩)
    simp [dictGet?, List.find?_append, hnone, List.find?]

/- ============ C10 : the confirmation gate ============ -/

/-- C10.  `ask_to_continue` returns normally iff the first input line,
stripped and lowercased, is `yes` (an empty line defaults to `yes`); a
first answer of `no` raises `InterruptedError`; and any other first
answer raises `InterruptedError` even when the recursive re-prompt
eventually receives a `yes`, because the outer call discards the
recursive result and `agree` is still `None`. -/
theorem ask_to_continue_gate (inputs : List String) :
    ((ask_to_continue inputs).2.2 = Except.ok ()
        ↔ ∃ s restIn, inputs = s :: restIn ∧ agreementOf s = "yes")
    ∧ (∀ s restIn, inputs = s :: restIn → agreementOf s = "no" →
        (ask_to_continue inputs).2.2 = Except.error RunExn.interruptedErr)
    ∧ (∀ s restIn, inputs = s :: restIn → agreementOf s ≠ "yes" →
        (ask_to_continue restIn).2.2 = Except.ok () →
        (ask_to_continue inputs).2.2 = Except.error RunExn.interruptedErr) := by
  match inputs with
  | [] =>
    refine ⟨?_, ?_, ?_⟩
    · simp [ask_to_continue]
    · intro s restIn h; exact absurd h (by simp)
    · intro s restIn h; exact absurd h (by simp)
  | s :: restIn =>
    by_cases hy : agreementOf s = "yes"
    · refine ⟨?_, ?_, ?_⟩
      · simp [ask_to_continue, hy]
      · intro s' r' hh hn
        cases hh
        rw [hy] at hn
        exact absurd hn (by decide)
      · intro s' r' hh hne
        cases hh
        exact absurd hy hne
    · by_cases hn : agreementOf s = "no"
      · refine ⟨?_, ?_, ?_⟩
        · constructor
          · intro hcontra
            simp [ask_to_continue, hy, hn] at hcontra
          · rintro ⟨s', r', hh, hyes⟩
            cases hh
            exact absurd hyes hy
        · intro s' r' hh _
          cases hh
          simp [ask_to_continue, hy, hn]
        · intro s' r' hh _ _
          cases hh
          simp [ask_to_continue, hy, hn]
      · refine ⟨?_, ?_, ?_⟩
        · constructor
          · intro hcontra
            rw [show ask_to_continue (s :: restIn)
                = (Event.ask "continue" :: (ask_to_continue restIn).1,
                    (ask_to_continue restIn).2.1,
                    match (ask_to_continue restIn).2.2 with
                    | Except.error e => Except.error e
                    | Except.ok _ => Except.error RunExn.interruptedErr) from by
              simp [ask_to_continue, hy, hn]] at hcontra
            rcases hr : (ask_to_continue restIn).2.2 with e | u <;>
              simp [hr] at hcontra
          · rintro ⟨s', r', hh, hyes⟩
            cases hh
            exact absurd hyes hy
        · intro s' r' hh hno
          cases hh
          exact absurd hno hn
        · intro s' r' hh _ hok
          cases hh
          simp [ask_to_continue, hy, hn, hok]

/-- C10 witness: a first answer of `maybe` ends in `InterruptedError`
although the re-prompt is answered `yes`. -/
theorem ask_to_continue_gate_witness :
    (ask_to_continue ["maybe", "yes"]).2.2 = Except.error RunExn.interruptedErr :=
  (ask_to_continue_gate ["maybe", "yes"]).2.2 "maybe" ["yes"] rfl (by decide)
    (by decide)

/- ============ C6 : the synthesized env key ============ -/

theorem load_environ_env_lookup (vals : Option (List (String × String))) :
    dictGet? (load_environ vals).2 "env"
      = some ((dictGet? (vals.getD []) "ENV").getD "latest") := by
  simp [load_environ, dictGet?_dictUpsert_self]

/-- C6.  `load_environ` always stores under `env` the parsed mapping's
`ENV` value (default `"latest"`), and on a missing file it warns and
returns the mapping containing only that synthesized key. -/
theorem load_environ_env_key (vals : Option (List (String × String))) :
    dictGet? (load_environ vals).2 "env"
        = some ((dictGet? (vals.getD []) "ENV").getD "latest")
    ∧ (vals = none →
        load_environ vals
          = ([Event.printMsg ".env file was not found, skipping"],
              [("env", "latest")])) := by
  constructor
  · exact load_environ_env_lookup vals
  · rintro rfl
    rfl

/-- C6 witness: the missing-file case. -/
theorem load_environ_env_key_witness :
    load_environ none
      = ([Event.printMsg ".env file was not found, skipping"],
          [("env", "latest")]) :=
  (load_environ_env_key none).2 rfl

/- ============ C1 : referential pruning ============ -/

theorem filterMap_services_names (l : List (String × Service))
    (T : List String) :
    ((l.filterMap (fun p =>
        if T.contains p.1 then some (p.1, filterService T p.2) else none)).map
        Prod.fst)
      = (l.map Prod.fst).filter (fun n => T.contains n) := by
  induction l with
  | nil => rfl
  | cons p restPairs ih =>
    cases h : T.contains p.1
    · simp only [List.filterMap_cons, List.map_cons, List.filter_cons, h,
        Bool.false_eq_true, if_false, ih]
    · simp only [List.filterMap_cons, List.map_cons, List.filter_cons, h,
        if_true, ih]

theorem refList_filterRefs_all (T : List String) (o : Option (List String)) :
    ((refList (filterRefs T o)).all (fun ref => T.contains ref)) = true := by
  match o with
  | none => rfl
  | some [] => rfl
  | some (a :: refs) =>
    simp only [filterRefs, refList, List.all_eq_true]
    intro ref href
    exact (List.mem_filter.mp href).2

theorem serviceRefsOk_filterService (T : List String) (sv : Service) :
    serviceRefsOk T (filterService T sv) = true := by
  have h1 := refList_filterRefs_all T sv.depends_on
  have h2 := refList_filterRefs_all T sv.links
  simp only [serviceRefsOk, filterService, Bool.and_eq_true]
  exact ⟨h1, h2⟩

/-- C1.  The compose filter keeps exactly the services whose name is in
the target set, and every `depends_on` / `links` reference surviving in
a retained service is itself a member of the target set. -/
theorem save_environment_compose_referential_pruning (D : ComposeDoc)
    (T : List String) :
    ((save_environment_compose_doc D T).services.map Prod.fst
        = (D.services.map Prod.fst).filter (fun n => T.contains n))
    ∧ ((save_environment_compose_doc D T).services.all
        (fun p => serviceRefsOk T p.2)) = true := by
  constructor
  · simpa [save_environment_compose_doc] using
      filterMap_services_names D.services T
  · rw [List.all_eq_true]
    intro p hp
    simp only [save_environment_compose_doc, List.mem_filterMap] at hp
    obtain ⟨q, _, heq⟩ := hp
    by_cases hc : T.contains q.1 = true
    · rw [if_pos hc] at heq
      cases heq
      exact serviceRefsOk_filterService T q.2
    · rw [if_neg hc] at heq
      exact absurd heq (by simp)

/- ============ C4 : selection resolution ============ -/

theorem enterLoop_ok_sound (allowed : List String) (default items_name : String) :
    ∀ (inputs : List String) (items : List String),
      allowed ≠ [] →
      (enterLoop allowed default items_name inputs).2.2 = Except.ok items →
      items ≠ [] ∧ ∀ x ∈ items, x ∈ allowed := by
  intro inputs
  induction inputs with
  | nil =>
    intro items _ h
    exact absurd h (by simp [enterLoop])
  | cons inp restIn ih =>
    intro items hne h
    simp only [enterLoop] at h
    generalize hi0 :
      ((pySplitWhitespace
            (if pyStrip (pyReplaceChar inp ',' ' ') == "" then default
             else pyStrip (pyReplaceChar inp ',' ' '))).map
          (fun t => pyToLower (pyStrip t))).filter
        (fun x => allowed.contains x || x == "all") = items0 at h
    split at h
    · exact ih items hne h
    · next h0 =>
      simp only [Except.ok.injEq] at h
      subst h
      split
      · exact ⟨hne, fun x hx => hx⟩
      · next hall =>
        have h0' : items0 ≠ [] := by
          intro hc
          exact h0 (by simp [hc])
        refine ⟨h0', fun x hx => ?_⟩
        have hpred : (allowed.contains x || x == "all") = true := by
          rw [← hi0] at hx
          exact (List.mem_filter.mp hx).2
        by_cases hxall : x = "all"
        · exact absurd (hxall ▸ hx) (by simpa using hall)
        · have hcx : allowed.contains x = true := by
            simp only [Bool.or_eq_true] at hpred
            rcases hpred with h1 | h2
            · exact h1
            · exact absurd (by simpa using h2) hxall
          simpa using hcx

theorem enter_ok_sound (silent : Bool) (allowed : List String)
    (default items_name : String) (inputs : List String) (items : List String)
    (hne : allowed ≠ []) (hdef : default ∈ allowed ∨ default = "all")
    (h : (enter silent allowed default items_name inputs).2.2 = Except.ok items) :
    items ≠ [] ∧ ∀ x ∈ items, x ∈ allowed := by
  unfold enter at h
  by_cases hs : silent = true
  · rw [if_pos hs] at h
    simp only [Except.ok.injEq] at h
    subst h
    by_cases hd : (default == "all") = true
    · rw [if_pos hd]
      exact ⟨hne, fun x hx => hx⟩
    · rw [if_neg hd]
      refine ⟨by simp, fun x hx => ?_⟩
      rcases hdef with hmem | hall
      · simpa [List.mem_singleton.mp hx] using hmem
      · exact absurd (by simpa using hall) hd
  · rw [if_neg hs] at h
    exact enterLoop_ok_sound allowed default items_name inputs items hne h

/-- C4 (amended).  Whenever a deploy-task or deploy-target selection is
resolved through `enter` (flags empty or invalid), the result is a
non-empty list of candidate names; in every case (caller-supplied flags
included) the resolved selection is non-empty and each selected name is
a candidate or the literal `all` — the literal `all` survives as-is
only on the caller-flag path. -/
theorem deploy_selection_resolution :
    (∀ (d : Deploy) (configs : Configs) (inputs : List String)
        (items : List String), taskNames configs ≠ [] →
        (enter_deploy_tasks d configs inputs).2.2 = Except.ok items →
        items ≠ [] ∧ ∀ x ∈ items, x ∈ taskNames configs ∨ x = "all")
    ∧ (∀ (d : Deploy) (compose : ComposeDoc) (inputs : List String)
        (items : List String), serviceNames compose ≠ [] →
        (enter_deploy_targets d compose inputs).2.2 = Except.ok items →
        items ≠ [] ∧ ∀ x ∈ items, x ∈ serviceNames compose ∨ x = "all") := by
  constructor
  · intro d configs inputs items hne h
    simp only [enter_deploy_tasks] at h
    split at h
    · next hcond =>
      simp only [Except.ok.injEq] at h
      subst h
      rw [Bool.and_eq_true] at hcond
      refine ⟨by simpa using hcond.1, fun x hx => ?_⟩
      have hx' := List.all_eq_true.mp hcond.2 x hx
      simp only [Bool.or_eq_true] at hx'
      rcases hx' with h1 | h2
      · exact Or.inl (by simpa using h1)
      · exact Or.inr (by simpa using h2)
    · have hdef : (taskNames configs).headD "" ∈ taskNames configs
          ∨ (taskNames configs).headD "" = "all" := by
        left
        match hx : taskNames configs, hne with
        | a :: l, _ => exact List.mem_cons_self a l
      obtain ⟨h1, h2⟩ := enter_ok_sound d.silent (taskNames configs)
        ((taskNames configs).headD "") "deploy tasks" inputs items hne hdef h
      exact ⟨h1, fun x hx => Or.inl (h2 x hx)⟩
  · intro d compose inputs items hne h
    simp only [enter_deploy_targets] at h
    split at h
    · next hcond =>
      simp only [Except.ok.injEq] at h
      subst h
      rw [Bool.and_eq_true] at hcond
      refine ⟨by simpa using hcond.1, fun x hx => ?_⟩
      have hx' := List.all_eq_true.mp hcond.2 x hx
      simp only [Bool.or_eq_true] at hx'
      rcases hx' with h1 | h2
      · exact Or.inl (by simpa using h1)
      · exact Or.inr (by simpa using h2)
    · obtain ⟨h1, h2⟩ := enter_ok_sound d.silent (serviceNames compose)
        "all" "deploy targets" inputs items hne (Or.inr rfl) h
      exact ⟨h1, fun x hx => Or.inl (h2 x hx)⟩

/-- The configuration of the C4 counterexample: one task named
`deploy`. -/
def cxConfigsC4 : Configs := { tasks := [("deploy", [])] }

/-- The flags of the C4 counterexample: `--task all`. -/
def cxDeployC4 : Deploy := { tasks := ["all"], silent := true }

/-- C4 counterexample: a caller-supplied `--task all` passes validation
(`all` is in the extended candidate list) and is returned as-is, so the
literal token `all` *does* appear as a selected name and the selection
is not a subsequence of the configuration's task names. -/
theorem enter_deploy_tasks_all_passthrough :
    enter_deploy_tasks cxDeployC4 cxConfigsC4 [] = ([], [], Except.ok ["all"])
    ∧ ((taskNames cxConfigsC4).contains "all") = false := by decide

/-- Silent run without caller flags, for the C4 witness. -/
def cxDeploySilent : Deploy := { silent := true }

/-- C4 witness: the silent entry path resolves to the first candidate. -/
theorem deploy_selection_resolution_witness :
    "deploy" ∈ taskNames cxConfigsC4 ∨ "deploy" = "all" :=
  (deploy_selection_resolution.1 cxDeploySilent cxConfigsC4 [] ["deploy"]
      (by decide) (by decide)).2 "deploy" (by decide)

/- ============ C7 : boolean coercion ============ -/

/-- C7.  For every parsed env line with a real `=` (so the split has at
least two parts), the stored value is a boolean exactly when the
processed value text lowercases to `true` or `false`; every other
stored value is the processed value text itself, as a string. -/
theorem read_env_file_bool_coercion (line k : String) (v : EnvVal)
    (hlen : 2 ≤ (pySplitChar (pyStrip line) '=').length)
    (h : parseLine? line = some (k, v)) :
    ((∃ b, v = EnvVal.bool b) ↔
        (pyToLower (parsedValueString (pySplitChar (pyStrip line) '=')) = "true" ∨
          pyToLower (parsedValueString (pySplitChar (pyStrip line) '=')) = "false"))
    ∧ (∀ s, v = EnvVal.str s →
        s = parsedValueString (pySplitChar (pyStrip line) '=')) := by
  simp only [parseLine?] at h
  split at h
  · exact absurd h (by simp)
  · split at h
    · next hl1 =>
      exfalso
      have : (pySplitChar (pyStrip line) '=').length = 1 := by simpa using hl1
      omega
    · rcases hB : dictGet? BOOL_MAPPING
          (pyToLower (parsedValueString (pySplitChar (pyStrip line) '='))) with
        _ | b
      · rw [hB] at h
        simp only [Option.some.injEq, Prod.mk.injEq] at h
        obtain ⟨_, hv⟩ := h
        subst hv
        constructor
        · constructor
          · rintro ⟨b, hb⟩
            exact absurd hb (by simp)
          · rintro (h1 | h1) <;> rw [h1] at hB <;> exact absurd hB (by decide)
        · intro s hs
          cases hs
          rfl
      · rw [hB] at h
        simp only [Option.some.injEq, Prod.mk.injEq] at h
        obtain ⟨_, hv⟩ := h
        subst hv
        have hx : pyToLower (parsedValueString (pySplitChar (pyStrip line) '='))
              = "true"
            ∨ pyToLower (parsedValueString (pySplitChar (pyStrip line) '='))
              = "false" := by
          by_cases h1 : pyToLower (parsedValueString
              (pySplitChar (pyStrip line) '=')) = "false"
          · exact Or.inr h1
          · by_cases h2 : pyToLower (parsedValueString
                (pySplitChar (pyStrip line) '=')) = "true"
            · exact Or.inl h2
            · exfalso
              have h1' : ("false" == pyToLower (parsedValueString
                  (pySplitChar (pyStrip line) '='))) = false := by
                simp
                exact fun hh => h1 hh.symm
              have h2' : ("true" == pyToLower (parsedValueString
                  (pySplitChar (pyStrip line) '='))) = false := by
                simp
                exact fun hh => h2 hh.symm
              rw [show dictGet? BOOL_MAPPING (pyToLower (parsedValueString
                  (pySplitChar (pyStrip line) '='))) = none from by
                simp [dictGet?, BOOL_MAPPING, List.find?, h1', h2']] at hB
              exact absurd hB (by simp)
        exact ⟨⟨fun _ => hx, fun _ => ⟨b, rfl⟩⟩, fun s hs => absurd hs (by simp)⟩

/-- C7 witness: `FLAG=TrUe` stores a boolean. -/
theorem read_env_file_bool_coercion_witness :
    ∃ b, EnvVal.bool true = EnvVal.bool b :=
  ((read_env_file_bool_coercion "FLAG=TrUe" "FLAG" (EnvVal.bool true)
      (by decide) (by decide)).1).mpr (by decide)

/- ============ C8 : quote stripping ============ -/

theorem head?_dropWhile_false (p : Char → Bool) :
    ∀ (l : List Char) (c : Char), (l.dropWhile p).head? = some c → p c = false := by
  intro l
  induction l with
  | nil => intro c h; simp [List.dropWhile] at h
  | cons a restChars ih =>
    intro c h
    rw [List.dropWhile_cons] at h
    split at h
    · exact ih c h
    · next ha =>
      simp only [List.head?_cons, Option.some.injEq] at h
      subst h
      exact Bool.eq_false_iff.mpr ha

/-- Stripping a predicate from both ends of a list decomposes the list
into an all-`p` prefix, the result (which neither starts nor ends with
a `p`-character), and an all-`p` suffix. -/
theorem stripBoth_decomp (p : Char → Bool) (l : List Char) :
    ∃ pre post,
      l = pre ++ ((l.dropWhile p).reverse.dropWhile p).reverse ++ post
      ∧ (∀ c ∈ pre, p c = true) ∧ (∀ c ∈ post, p c = true)
      ∧ (∀ c, ((l.dropWhile p).reverse.dropWhile p).reverse.head? = some c →
          p c = false)
      ∧ (∀ c, ((l.dropWhile p).reverse.dropWhile p).reverse.getLast? = some c →
          p c = false) := by
  refine ⟨l.takeWhile p, ((l.dropWhile p).reverse.takeWhile p).reverse,
    ?_, ?_, ?_, ?_, ?_⟩
  · conv_lhs => rw [← List.takeWhile_append_dropWhile p l]
    rw [List.append_assoc]
    congr 1
    calc l.dropWhile p
        = (l.dropWhile p).reverse.reverse := (List.reverse_reverse _).symm
      _ = ((l.dropWhile p).reverse.takeWhile p
            ++ (l.dropWhile p).reverse.dropWhile p).reverse := by
          rw [List.takeWhile_append_dropWhile]
      _ = ((l.dropWhile p).reverse.dropWhile p).reverse
            ++ ((l.dropWhile p).reverse.takeWhile p).reverse := by
          rw [List.reverse_append]
  · intro c hc
    exact List.mem_takeWhile_imp hc
  · intro c hc
    exact List.mem_takeWhile_imp (List.mem_reverse.mp hc)
  · intro c hc
    rw [List.head?_reverse] at hc
    have hq : (l.dropWhile p).reverse.dropWhile p ≠ [] := by
      intro hh
      rw [hh] at hc
      exact absurd hc (by simp)
    have hsplit := List.takeWhile_append_dropWhile p (l.dropWhile p).reverse
    have : (l.dropWhile p).reverse.getLast?
        = ((l.dropWhile p).reverse.dropWhile p).getLast? := by
      conv_lhs => rw [← hsplit]
      exact List.getLast?_append_of_ne_nil _ hq
    rw [← this, List.getLast?_reverse] at hc
    exact head?_dropWhile_false p l c hc
  · intro c hc
    rw [List.getLast?_reverse] at hc
    exact head?_dropWhile_false p (l.dropWhile p).reverse c hc

/-- The stored string value of a parsed env line is the processed value
text (whitespace- and quote-stripped). -/
theorem parseLine?_str_val (line k s : String)
    (hlen : 2 ≤ (pySplitChar (pyStrip line) '=').length)
    (h : parseLine? line = some (k, EnvVal.str s)) :
    s = parsedValueString (pySplitChar (pyStrip line) '=') := by
  simp only [parseLine?] at h
  split at h
  · exact absurd h (by simp)
  · split at h
    · next hl1 =>
      exfalso
      have : (pySplitChar (pyStrip line) '=').length = 1 := by simpa using hl1
      omega
    · rcases hB : dictGet? BOOL_MAPPING
          (pyToLower (parsedValueString (pySplitChar (pyStrip line) '='))) with
        _ | b
      · rw [hB] at h
        simp only [Option.some.injEq, Prod.mk.injEq] at h
        obtain ⟨_, hv⟩ := h
        cases hv
        rfl
      · rw [hB] at h
        simp only [Option.some.injEq, Prod.mk.injEq] at h
        obtain ⟨_, hv⟩ := h
        exact absurd hv (by simp)

/-- C8 (amended).  For every env line with a real `=`, the stored string
value is obtained from the text after the first `=` by stripping
surrounding whitespace and then *all* leading and trailing quote
characters (single or double, matched or not, any count): the raw value
splits as quote-prefix ++ stored ++ quote-suffix, and the stored value
neither starts nor ends with a quote character. -/
theorem read_env_file_quote_strip_amended (line k s : String)
    (hlen : 2 ≤ (pySplitChar (pyStrip line) '=').length)
    (h : parseLine? line = some (k, EnvVal.str s)) :
    ∃ pre post,
      (rawJoined (pySplitChar (pyStrip line) '=')).toList
          = pre ++ s.toList ++ post
      ∧ (∀ c ∈ pre, isQuoteChar c = true)
      ∧ (∀ c ∈ post, isQuoteChar c = true)
      ∧ (∀ c, s.toList.head? = some c → isQuoteChar c = false)
      ∧ (∀ c, s.toList.getLast? = some c → isQuoteChar c = false) := by
  have hs := parseLine?_str_val line k s hlen h
  subst hs
  exact stripBoth_decomp isQuoteChar
    (rawJoined (pySplitChar (pyStrip line) '=')).toList

/-- What the claim's wording predicts: remove exactly one pair of
matching surrounding quote characters, nothing otherwise. -/
def stripOneMatchingPair (s : String) : String :=
  let l := s.toList
  match l.head?, l.getLast? with
  | some a, some b =>
    if decide (2 ≤ l.length) && isQuoteChar a && (a == b) then
      String.mk (l.drop 1).dropLast
    else s
  | _, _ => s

/-- C8 counterexample: for the line `K=""x""` the code stores `x`
(every surrounding quote character is stripped), while removing only a
single matching pair would leave `"x"`. -/
theorem read_env_file_quote_strip_counterexample :
    parseLine? "K=\"\"x\"\"" = some ("K", EnvVal.str "x")
    ∧ stripOneMatchingPair
        (rawJoined (pySplitChar (pyStrip "K=\"\"x\"\"") '=')) = "\"x\""
    ∧ ("x" : String) ≠ "\"x\"" := by decide

/-- C8 witness: the amended statement evaluated on the same line. -/
theorem read_env_file_quote_strip_amended_witness :
    ∃ pre post,
      (rawJoined (pySplitChar (pyStrip "K=\"\"x\"\"") '=')).toList
          = pre ++ ("x" : String).toList ++ post
      ∧ (∀ c ∈ pre, isQuoteChar c = true)
      ∧ (∀ c ∈ post, isQuoteChar c = true)
      ∧ (∀ c, ("x" : String).toList.head? = some c → isQuoteChar c = false)
      ∧ (∀ c, ("x" : String).toList.getLast? = some c → isQuoteChar c = false) :=
  read_env_file_quote_strip_amended "K=\"\"x\"\"" "K" "x" (by decide) (by decide)

/- ============ C3 / C5 : pipeline executor lemmas ============ -/

theorem interpolateOk_eq_true (environ : List (String × String))
    (pipe : List Frag) (h : interpolateOk environ pipe = true) :
    ∃ c, interpolate environ pipe = Except.ok c := by
  unfold interpolateOk at h
  split at h
  · next c heq => exact ⟨c, heq⟩
  · exact absurd h (by simp)

theorem runSteps_all_ok (environ : List (String × String)) (sys : String → Int) :
    ∀ (steps : List (List Frag)) (i : Nat),
      (∀ q ∈ steps, interpolateOk environ q = true) →
      (runSteps environ sys steps i).2 = none
      ∧ ((runSteps environ sys steps i).1.countP isExecEv) = steps.length := by
  intro steps
  induction steps with
  | nil => intro i _; exact ⟨rfl, rfl⟩
  | cons q restSteps ih =>
    intro i hok
    obtain ⟨c, hc⟩ := interpolateOk_eq_true environ q (hok q (by simp))
    have hrest := ih (i + 1) (fun r hr => hok r (by simp [hr]))
    refine ⟨?_, ?_⟩
    · simp only [runSteps, hc]
      exact hrest.1
    · simp only [runSteps, hc, List.countP_cons, isExecEv, List.length_cons]
      simp [hrest.2]

theorem runSteps_first_error (environ : List (String × String))
    (sys : String → Int) (q : List Frag) (e : String)
    (post : List (List Frag)) :
    ∀ (pre : List (List Frag)) (i : Nat),
      (∀ r ∈ pre, interpolateOk environ r = true) →
      interpolate environ q = Except.error e →
      runSteps environ sys (pre ++ q :: post) i
        = ((runSteps environ sys pre i).1, some e) := by
  intro pre
  induction pre with
  | nil =>
    intro i _ herr
    simp [runSteps, herr]
  | cons r restPre ih =>
    intro i hok herr
    obtain ⟨c, hc⟩ := interpolateOk_eq_true environ r (hok r (by simp))
    have hih := ih (i + 1) (fun x hx => hok x (by simp [hx])) herr
    simp only [List.cons_append, runSteps, hc, List.append_eq, hih]

theorem runSubtask_ok (environ : List (String × String)) (sys : String → Int)
    (task : String) (st : Subtask)
    (h : ∀ q ∈ st.pipeline, interpolateOk environ q = true) :
    runSubtask environ sys task st
      = Event.subtaskStart (subtaskName task st) ::
          (runSteps environ sys st.pipeline 0).1
          ++ [Event.subtaskFinish (subtaskName task st)] := by
  have hn := (runSteps_all_ok environ sys st.pipeline 0 h).1
  simp [runSubtask, hn]

theorem runSubtask_skip (environ : List (String × String)) (sys : String → Int)
    (task : String) (st : Subtask) (pre : List (List Frag)) (q : List Frag)
    (e : String) (post : List (List Frag))
    (hp : st.pipeline = pre ++ q :: post)
    (hok : ∀ r ∈ pre, interpolateOk environ r = true)
    (herr : interpolate environ q = Except.error e) :
    runSubtask environ sys task st
      = Event.subtaskStart (subtaskName task st) ::
          (runSteps environ sys pre 0).1
          ++ [Event.subtaskSkip (subtaskName task st) e] := by
  have hfe := runSteps_first_error environ sys q e post pre 0 hok herr
  simp [runSubtask, hp, hfe]

theorem execute_pipeline_contains_subtask (configs : Configs)
    (environ : List (String × String)) (sys : String → Int) :
    ∀ (ts : List String),
      (∀ t' ∈ ts, (dictGet? configs.tasks t').isSome = true) →
      ∀ t ∈ ts, ∀ st ∈ (dictGet? configs.tasks t).getD [],
        List.IsInfix (runSubtask environ sys t st)
          (execute_pipeline configs environ sys ts).1 := by
  intro ts
  induction ts with
  | nil => intro _ t ht; exact absurd ht (by simp)
  | cons t0 restTs ih =>
    intro hkeys t ht st hst
    have hk0 := hkeys t0 (by simp)
    rcases hDict : dictGet? configs.tasks t0 with _ | subtasks
    · rw [hDict] at hk0
      exact absurd hk0 (by simp)
    · rcases List.mem_cons.mp ht with rfl | htr
      · rw [hDict] at hst
        have hmem : runSubtask environ sys t st
            ∈ subtasks.map (runSubtask environ sys t) :=
          List.mem_map_of_mem _ hst
        obtain ⟨u, v, huv⟩ := List.infix_of_mem_flatten hmem
        refine ⟨u, v ++ (execute_pipeline configs environ sys restTs).1, ?_⟩
        simp only [execute_pipeline, hDict]
        have hgl := congrArg
          (fun z => z ++ (execute_pipeline configs environ sys restTs).1) huv
        simpa [List.append_assoc] using hgl
      · have hinf := ih (fun x hx => hkeys x (by simp [hx])) t htr st hst
        obtain ⟨u, v, huv⟩ := hinf
        refine ⟨(subtasks.map (runSubtask environ sys t0)).flatten ++ u, v, ?_⟩
        simp only [execute_pipeline, hDict]
        have hgl := congrArg
          (fun z => (subtasks.map (runSubtask environ sys t0)).flatten ++ z) huv
        simpa [List.append_assoc] using hgl

/-- C3.  Each selected subtask's event block appears intact in the full
run (failures elsewhere cannot touch it); a subtask always reports its
start first; a subtask whose whole pipeline interpolates runs every
step and reports `Finished`; and an interpolation error at one step
executes exactly the steps before it, reports `Skipping` with the
error, and nothing else of that subtask. -/
theorem execute_pipeline_subtask_isolation (configs : Configs)
    (environ : List (String × String)) (sys : String → Int)
    (ts : List String) (t : String) (st : Subtask)
    (hkeys : ∀ t' ∈ ts, (dictGet? configs.tasks t').isSome = true)
    (ht : t ∈ ts) (hst : st ∈ (dictGet? configs.tasks t).getD []) :
    List.IsInfix (runSubtask environ sys t st)
        (execute_pipeline configs environ sys ts).1
    ∧ (runSubtask environ sys t st).head?
        = some (Event.subtaskStart (subtaskName t st))
    ∧ ((∀ q ∈ st.pipeline, interpolateOk environ q = true) →
        runSubtask environ sys t st
          = Event.subtaskStart (subtaskName t st) ::
              (runSteps environ sys st.pipeline 0).1
              ++ [Event.subtaskFinish (subtaskName t st)]
          ∧ ((runSteps environ sys st.pipeline 0).1.countP isExecEv)
              = st.pipeline.length)
    ∧ (∀ (pre : List (List Frag)) (q : List Frag) (e : String)
          (post : List (List Frag)), st.pipeline = pre ++ q :: post →
        (∀ r ∈ pre, interpolateOk environ r = true) →
        interpolate environ q = Except.error e →
        runSubtask environ sys t st
          = Event.subtaskStart (subtaskName t st) ::
              (runSteps environ sys pre 0).1
              ++ [Event.subtaskSkip (subtaskName t st) e]
          ∧ ((runSteps environ sys pre 0).1.countP isExecEv) = pre.length) := by
  refine ⟨execute_pipeline_contains_subtask configs environ sys ts hkeys t ht st
      hst, rfl, ?_, ?_⟩
  · intro hok
    exact ⟨runSubtask_ok environ sys t st hok,
      (runSteps_all_ok environ sys st.pipeline 0 hok).2⟩
  · intro pre q e post hp hok herr
    refine ⟨runSubtask_skip environ sys t st pre q e post hp hok herr, ?_⟩
    exact (runSteps_all_ok environ sys pre 0 hok).2

/-- Environment, config and pipelines of the C3 witness: the first
subtask's second step references a key missing from the environment
mapping, the second subtask is unaffected. -/
def envC3 : List (String × String) := [("env", "latest")]

/-- First subtask of the C3 witness. -/
def stC3a : Subtask :=
  { title := "first"
    pipeline := [[Frag.lit "echo a"], [Frag.var "missing"], [Frag.lit "echo c"]] }

/-- Second subtask of the C3 witness. -/
def stC3b : Subtask := { title := "second", pipeline := [[Frag.lit "echo d"]] }

/-- Config of the C3 witness. -/
def cfgC3 : Configs := { tasks := [("up", [stC3a, stC3b])] }

/-- Exit-code oracle of the C3 witness. -/
def sysC3 : String → Int := fun _ => 0

/-- C3 witness: the failing first subtask executes exactly its first
step and reports `Skipping` with the missing key. -/
theorem execute_pipeline_subtask_isolation_witness :
    runSubtask envC3 sysC3 "up" stC3a
      = Event.subtaskStart (subtaskName "up" stC3a) ::
          (runSteps envC3 sysC3 [[Frag.lit "echo a"]] 0).1
          ++ [Event.subtaskSkip (subtaskName "up" stC3a) "missing"]
    ∧ ((runSteps envC3 sysC3 [[Frag.lit "echo a"]] 0).1.countP isExecEv)
        = ([[Frag.lit "echo a"]] : List (List Frag)).length :=
  (execute_pipeline_subtask_isolation cfgC3 envC3 sysC3 ["up"] "up" stC3a
      (by decide) (by decide) (by decide)).2.2.2
    [[Frag.lit "echo a"]] [Frag.var "missing"] "missing" [[Frag.lit "echo c"]]
    rfl (by decide) (by decide)

/- ============ C5 : exit codes never interrupt ============ -/

theorem runSteps_erase (environ : List (String × String))
    (sys1 sys2 : String → Int) :
    ∀ (steps : List (List Frag)) (i : Nat),
      ((runSteps environ sys1 steps i).1.map eraseCode
        = (runSteps environ sys2 steps i).1.map eraseCode)
      ∧ (runSteps environ sys1 steps i).2 = (runSteps environ sys2 steps i).2 := by
  intro steps
  induction steps with
  | nil => intro i; exact ⟨rfl, rfl⟩
  | cons q restSteps ih =>
    intro i
    rcases hc : interpolate environ q with e | c
    · simp [runSteps, hc]
    · have hih := ih (i + 1)
      refine ⟨?_, ?_⟩
      · simp only [runSteps, hc, List.map_cons, eraseCode, hih.1]
      · simp only [runSteps, hc, hih.2]

theorem runSubtask_erase (environ : List (String × String))
    (sys1 sys2 : String → Int) (task : String) (st : Subtask) :
    (runSubtask environ sys1 task st).map eraseCode
      = (runSubtask environ sys2 task st).map eraseCode := by
  have h := runSteps_erase environ sys1 sys2 st.pipeline 0
  rcases h2 : (runSteps environ sys1 st.pipeline 0).2 with _ | e
  · have h2' : (runSteps environ sys2 st.pipeline 0).2 = none := by
      rw [← h.2]; exact h2
    simp [runSubtask, h2, h2', eraseCode, h.1]
  · have h2' : (runSteps environ sys2 st.pipeline 0).2 = some e := by
      rw [← h.2]; exact h2
    simp [runSubtask, h2, h2', eraseCode, h.1]

theorem execute_pipeline_erase (configs : Configs)
    (environ : List (String × String)) (sys1 sys2 : String → Int) :
    ∀ (ts : List String),
      ((execute_pipeline configs environ sys1 ts).1.map eraseCode
        = (execute_pipeline configs environ sys2 ts).1.map eraseCode)
      ∧ (execute_pipeline configs environ sys1 ts).2
        = (execute_pipeline configs environ sys2 ts).2 := by
  intro ts
  induction ts with
  | nil => exact ⟨rfl, rfl⟩
  | cons t0 restTs ih =>
    rcases hDict : dictGet? configs.tasks t0 with _ | subtasks
    · simp [execute_pipeline, hDict]
    · refine ⟨?_, ?_⟩
      · simp only [execute_pipeline, hDict, List.map_append, ih.1]
        congr 1
        rw [List.map_flatten, List.map_flatten, List.map_map, List.map_map]
        exact congrArg List.flatten (List.map_congr_left
          (fun st _ => runSubtask_erase environ sys1 sys2 t0 st))
      · simp only [execute_pipeline, hDict, ih.2]

theorem runSteps_no_skip (environ : List (String × String)) (sys : String → Int) :
    ∀ (steps : List (List Frag)) (i : Nat),
      ((runSteps environ sys steps i).1.any isSkipEv) = false := by
  intro steps
  induction steps with
  | nil => intro i; rfl
  | cons q restSteps ih =>
    intro i
    rcases hc : interpolate environ q with e | c
    · simp [runSteps, hc]
    · simp [runSteps, hc, isSkipEv, ih (i + 1)]

theorem runSteps_err_any (environ : List (String × String)) (sys : String → Int) :
    ∀ (steps : List (List Frag)) (i : Nat),
      (runSteps environ sys steps i).2.isSome
        = steps.any (fun q => !interpolateOk environ q) := by
  intro steps
  induction steps with
  | nil => intro i; rfl
  | cons q restSteps ih =>
    intro i
    rcases hc : interpolate environ q with e | c
    · simp [runSteps, hc, interpolateOk]
    · simp [runSteps, hc, interpolateOk, ih (i + 1)]

theorem runSubtask_skip_iff (environ : List (String × String))
    (sys : String → Int) (task : String) (st : Subtask) :
    (runSubtask environ sys task st).any isSkipEv
      = st.pipeline.any (fun q => !interpolateOk environ q) := by
  have herr := runSteps_err_any environ sys st.pipeline 0
  have hns := runSteps_no_skip environ sys st.pipeline 0
  rcases h2 : (runSteps environ sys st.pipeline 0).2 with _ | e
  · rw [h2] at herr
    simp [runSubtask, h2, isSkipEv, hns, ← herr]
  · rw [h2] at herr
    simp [runSubtask, h2, isSkipEv, hns, ← herr]

/-- C5.  The executor's events (up to the observed exit codes) and its
outcome are identical for any two exit-code oracles — a non-zero exit
status never interrupts the step loop — and a subtask reports
`Skipping` exactly when some step of its pipeline fails to
interpolate. -/
theorem execute_pipeline_exit_code_independence (configs : Configs)
    (environ : List (String × String)) (sys1 sys2 : String → Int)
    (ts : List String) (t : String) (st : Subtask) :
    ((execute_pipeline configs environ sys1 ts).1.map eraseCode
        = (execute_pipeline configs environ sys2 ts).1.map eraseCode)
    ∧ (execute_pipeline configs environ sys1 ts).2
        = (execute_pipeline configs environ sys2 ts).2
    ∧ ((runSubtask environ sys1 t st).any isSkipEv
        = st.pipeline.any (fun q => !interpolateOk environ q)) :=
  ⟨(execute_pipeline_erase configs environ sys1 sys2 ts).1,
    (execute_pipeline_erase configs environ sys1 sys2 ts).2,
    runSubtask_skip_iff environ sys1 t st⟩

/- ============ C2 : non-empty invariants abort early ============ -/

/-- C2.  A run whose merged `tasks` mapping is empty aborts fatally
before any interaction or deploy side effect, and a run whose rendered
compose document has an empty or absent `services` mapping aborts
fatally before any deploy side effect (in particular before any file is
written). -/
theorem nonempty_invariants (d : Deploy) (w : World) (inputs : List String) :
    (mergedTasks w.configFile = [] →
      ((start d w inputs).1.all
          (fun e => !(isInteractionEv e || isSideEffectEv e))) = true
      ∧ (start d w inputs).2 ≠ StartResult.completed)
    ∧ (renderedServices w.composeRendered = [] →
      ((start d w inputs).1.all (fun e => !isSideEffectEv e)) = true
      ∧ (start d w inputs).2 ≠ StartResult.completed) := by
  obtain ⟨dw, dr, cf, ev, cr, sy, ch, rm⟩ := w
  constructor
  · intro h
    simp only [mergedTasks] at h
    rcases cf with _ | c
    · cases dw <;> cases dr <;>
        simp [start, validate_docker_binaries, load_configs, startCatch,
          caughtByStart, isInteractionEv, isSideEffectEv]
    · rw [Option.getD_some] at h
      cases dw <;> cases dr <;>
        simp [start, validate_docker_binaries, load_configs, h, startCatch,
          caughtByStart, isInteractionEv, isSideEffectEv]
  · intro h
    simp only [renderedServices] at h
    rcases cf with _ | c
    · cases dw <;> cases dr <;>
        simp [start, validate_docker_binaries, load_configs, startCatch,
          caughtByStart, isSideEffectEv]
    · rcases hct : c.tasks with _ | ⟨t0, restT⟩
      · cases dw <;> cases dr <;>
          simp [start, validate_docker_binaries, load_configs, hct, startCatch,
            caughtByStart, isSideEffectEv]
      · rcases cr with _ | cd
        · rcases ev with _ | vals <;> cases dw <;> cases dr <;>
            simp [start, validate_docker_binaries, load_configs, load_environ,
              load_compose, hct, startCatch, caughtByStart, isSideEffectEv]
        · rw [Option.getD_some] at h
          rcases ev with _ | vals <;> cases dw <;> cases dr <;>
            simp [start, validate_docker_binaries, load_configs, load_environ,
              load_compose, hct, h, startCatch, caughtByStart, isSideEffectEv]

/-- World of the C2 witness: an existing config file whose `tasks`
mapping is empty. -/
def wC2 : World := { configFile := some { tasks := [] } }

/-- Flags of the C2 witness. -/
def dC2 : Deploy := { silent := true }

/-- C2 witness: the empty-tasks run performs no interaction and no
deploy side effect, and does not complete. -/
theorem nonempty_invariants_witness :
    ((start dC2 wC2 []).1.all
        (fun e => !(isInteractionEv e || isSideEffectEv e))) = true
    ∧ (start dC2 wC2 []).2 ≠ StartResult.completed :=
  (nonempty_invariants dC2 wC2 []).1 rfl

/- ============ C9 : artifact lifecycle ============ -/

theorem no_write_validate (w : World) (p : String) :
    Event.fileWrite p ∉ (validate_docker_binaries w).1 := by
  unfold validate_docker_binaries
  split
  · simp
  · split <;> simp

theorem no_write_load_configs (raw : Option Configs) (p : String) :
    Event.fileWrite p ∉ (load_configs raw).1 := by
  rcases raw with _ | c
  · simp [load_configs]
  · by_cases h : c.tasks.isEmpty = true <;> simp [load_configs, h]

theorem no_write_load_environ (vals : Option (List (String × String)))
    (p : String) : Event.fileWrite p ∉ (load_environ vals).1 := by
  rcases vals with _ | v <;> simp [load_environ]

theorem no_write_load_compose (raw : Option ComposeDoc) (p : String) :
    Event.fileWrite p ∉ (load_compose raw).1 := by
  rcases raw with _ | c
  · simp [load_compose]
  · by_cases h : c.services.isEmpty = true <;> simp [load_compose, h]

theorem no_write_enterLoop (allowed : List String) (default items_name : String) :
    ∀ (inputs : List String) (p : String),
      Event.fileWrite p ∉ (enterLoop allowed default items_name inputs).1 := by
  intro inputs
  induction inputs with
  | nil => intro p; simp [enterLoop]
  | cons inp restIn ih =>
    intro p
    simp only [enterLoop]
    split <;> split <;> simp [ih p]

theorem no_write_enter (silent : Bool) (allowed : List String)
    (default items_name : String) (inputs : List String) (p : String) :
    Event.fileWrite p ∉ (enter silent allowed default items_name inputs).1 := by
  unfold enter
  split
  · simp
  · exact no_write_enterLoop allowed default items_name inputs p

theorem no_write_enter_deploy_tasks (d : Deploy) (configs : Configs)
    (inputs : List String) (p : String) :
    Event.fileWrite p ∉ (enter_deploy_tasks d configs inputs).1 := by
  simp only [enter_deploy_tasks]
  split
  · simp
  · exact no_write_enter _ _ _ _ _ p

theorem no_write_enter_deploy_targets (d : Deploy) (compose : ComposeDoc)
    (inputs : List String) (p : String) :
    Event.fileWrite p ∉ (enter_deploy_targets d compose inputs).1 := by
  simp only [enter_deploy_targets]
  split
  · simp
  · exact no_write_enter _ _ _ _ _ p

theorem no_write_ask_to_continue :
    ∀ (inputs : List String) (p : String),
      Event.fileWrite p ∉ (ask_to_continue inputs).1 := by
  intro inputs
  induction inputs with
  | nil => intro p; simp [ask_to_continue]
  | cons s restIn ih =>
    intro p
    simp only [ask_to_continue]
    split
    · simp
    · split
      · simp
      · simp [ih p]

theorem no_write_runGate (cond : Bool) (ins : List String) (p : String) :
    Event.fileWrite p ∉ (runGate cond ins).1 := by
  unfold runGate
  split
  · exact no_write_ask_to_continue ins p
  · simp

theorem no_write_runSteps (environ : List (String × String)) (sys : String → Int) :
    ∀ (steps : List (List Frag)) (i : Nat) (p : String),
      Event.fileWrite p ∉ (runSteps environ sys steps i).1 := by
  intro steps
  induction steps with
  | nil => intro i p; simp [runSteps]
  | cons q restSteps ih =>
    intro i p
    rcases hc : interpolate environ q with e | c
    · simp [runSteps, hc]
    · simp [runSteps, hc, ih (i + 1) p]

theorem no_write_runSubtask (environ : List (String × String))
    (sys : String → Int) (task : String) (st : Subtask) (p : String) :
    Event.fileWrite p ∉ runSubtask environ sys task st := by
  intro hmem
  rcases h2 : (runSteps environ sys st.pipeline 0).2 with _ | e <;>
    simp [runSubtask, h2] at hmem <;>
    exact no_write_runSteps environ sys st.pipeline 0 p hmem

theorem no_write_execute_pipeline (configs : Configs)
    (environ : List (String × String)) (sys : String → Int) :
    ∀ (ts : List String) (p : String),
      Event.fileWrite p ∉ (execute_pipeline configs environ sys ts).1 := by
  intro ts
  induction ts with
  | nil => intro p; simp [execute_pipeline]
  | cons t0 restTs ih =>
    intro p hmem
    rcases hDict : dictGet? configs.tasks t0 with _ | subtasks
    · simp [execute_pipeline, hDict] at hmem
    · simp only [execute_pipeline, hDict, List.mem_append] at hmem
      rcases hmem with hmem | hmem
      · rw [List.mem_flatten] at hmem
        obtain ⟨l, hl, hel⟩ := hmem
        obtain ⟨st, _, rfl⟩ := List.mem_map.mp hl
        exact no_write_runSubtask environ sys t0 st p hel
      · exact ih p hmem

theorem mem_startCatch (evs : List Event) (ex : RunExn) (p : String)
    (h : Event.fileWrite p ∈ (startCatch evs ex).1) :
    Event.fileWrite p ∈ evs := by
  unfold startCatch at h
  split at h
  · simpa using h
  · exact h

theorem startCatch_not_completed (evs : List Event) (ex : RunExn) :
    (startCatch evs ex).2 ≠ StartResult.completed := by
  unfold startCatch
  split <;> simp

theorem artifactPath_eq (d : Deploy) (w : World) :
    composeArtifact d.deploydir
        ((dictGet? (load_environ w.envFileVals).2 "env").getD "latest")
      = artifactPath d w := by
  rw [artifactPath, load_environ_env_lookup, Option.getD_some]

theorem no_write_append {p : String} {l1 l2 : List Event}
    (h1 : Event.fileWrite p ∉ l1) (h2 : Event.fileWrite p ∉ l2) :
    Event.fileWrite p ∉ l1 ++ l2 := by
  intro h
  rcases List.mem_append.mp h with h | h
  exacts [h1 h, h2 h]

theorem pair_eq_fst {A B : Type} {x : A × B} {a : A} {b : B} (h : x = (a, b)) :
    x.1 = a := by rw [h]

theorem pair_eq_snd {A B : Type} {x : A × B} {a : A} {b : B} (h : x = (a, b)) :
    x.2 = b := by rw [h]

theorem save_events (d : Deploy) (w : World) (compose : ComposeDoc)
    (deploy_targets : List String) (env : String) :
    (save_environment_compose d w compose deploy_targets env).1
      = Event.fileWrite (composeArtifact d.deploydir env) ::
          Event.chmodTry (composeArtifact d.deploydir env) w.chmodOk ::
          (if w.chmodOk then []
           else [Event.printMsg "Unable to change permissions"]) := rfl

theorem save_path (d : Deploy) (w : World) (compose : ComposeDoc)
    (deploy_targets : List String) (env : String) :
    (save_environment_compose d w compose deploy_targets env).2.2
      = composeArtifact d.deploydir env := rfl

theorem mem_save_events (d : Deploy) (w : World) (compose : ComposeDoc)
    (deploy_targets : List String) (env : String) (p : String)
    (h : Event.fileWrite p
        ∈ (save_environment_compose d w compose deploy_targets env).1) :
    p = composeArtifact d.deploydir env := by
  rw [save_events] at h
  rcases hch : w.chmodOk with _ | _ <;> rw [hch] at h <;> simpa using h

/-- Every file write that `start` ever performs is the single compose
artifact at `artifactPath`, and a run whose exception handler fired
(`interrupted`) never wrote it. -/
theorem start_write_characterization (d : Deploy) (w : World)
    (inputs : List String) (p : String)
    (hp : Event.fileWrite p ∈ (start d w inputs).1) :
    p = artifactPath d w
    ∧ ∀ ex, (start d w inputs).2 ≠ StartResult.interrupted ex := by
  rcases hS : start d w inputs with ⟨tr, res⟩
  rw [hS] at hp
  replace hp : Event.fileWrite p ∈ tr := hp
  show p = artifactPath d w ∧ ∀ ex, res ≠ StartResult.interrupted ex
  simp only [start] at hS
  have H0 : Event.fileWrite p ∉ [Event.printMsg "Started deploy"] := by simp
  split at hS
  · next e1 ex heq1 =>
    exfalso
    have htr := pair_eq_fst hS
    rw [← htr] at hp
    exact no_write_append H0 (pair_eq_fst heq1 ▸ no_write_validate w p)
      (mem_startCatch _ _ _ hp)
  · next e1 u1 heq1 =>
    have H1 := no_write_append H0 (pair_eq_fst heq1 ▸ no_write_validate w p)
    split at hS
    · next e2 ex heq2 =>
      exfalso
      have htr := pair_eq_fst hS
      rw [← htr] at hp
      exact no_write_append H1
        (pair_eq_fst heq2 ▸ no_write_load_configs w.configFile p)
        (mem_startCatch _ _ _ hp)
    · next e2 configs heq2 =>
      have H2 := no_write_append H1
        (pair_eq_fst heq2 ▸ no_write_load_configs w.configFile p)
      have H3 := no_write_append H2 (no_write_load_environ w.envFileVals p)
      split at hS
      · next e4 ex heq4 =>
        exfalso
        have htr := pair_eq_fst hS
        rw [← htr] at hp
        exact no_write_append H3
          (pair_eq_fst heq4 ▸ no_write_load_compose w.composeRendered p)
          (mem_startCatch _ _ _ hp)
      · next e4 compose heq4 =>
        have H4 := no_write_append H3
          (pair_eq_fst heq4 ▸ no_write_load_compose w.composeRendered p)
        split at hS
        · next e5 rem5 ex heq5 =>
          exfalso
          have htr := pair_eq_fst hS
          rw [← htr] at hp
          exact no_write_append H4
            (pair_eq_fst heq5 ▸ no_write_enter_deploy_tasks d configs inputs p)
            (mem_startCatch _ _ _ hp)
        · next e5 ins5 deploy_tasks heq5 =>
          have H5 := no_write_append H4
            (pair_eq_fst heq5 ▸ no_write_enter_deploy_tasks d configs inputs p)
          split at hS
          · next e6 rem6 ex heq6 =>
            exfalso
            have htr := pair_eq_fst hS
            rw [← htr] at hp
            exact no_write_append H5
              (pair_eq_fst heq6 ▸ no_write_enter_deploy_targets d compose
                ins5 p)
              (mem_startCatch _ _ _ hp)
          · next e6 ins6 deploy_targets heq6 =>
            have H6 := no_write_append H5
              (pair_eq_fst heq6 ▸ no_write_enter_deploy_targets d compose
                ins5 p)
            split at hS
            · next e7 rem7 ex heq7 =>
              exfalso
              have htr := pair_eq_fst hS
              rw [← htr] at hp
              exact no_write_append H6
                (pair_eq_fst heq7 ▸ no_write_runGate _ ins6 p)
                (mem_startCatch _ _ _ hp)
            · next e7 rem7 u7 heq7 =>
              have H7 := no_write_append H6
                (pair_eq_fst heq7 ▸ no_write_runGate _ ins6 p)
              split at hS
              · next e9 ex heq9 =>
                have htr := pair_eq_fst hS
                have hres := pair_eq_snd hS
                rw [← htr] at hp
                constructor
                · rcases List.mem_append.mp hp with hp | hp
                  · rcases List.mem_append.mp hp with hp | hp
                    · exact absurd hp H7
                    · exact (mem_save_events d w compose deploy_targets _ p
                          hp).trans (artifactPath_eq d w)
                  · exact absurd hp (pair_eq_fst heq9 ▸
                      no_write_execute_pipeline configs
                        (load_environ w.envFileVals).2 w.sys deploy_tasks p)
                · intro ex'
                  rw [← hres]
                  simp
              · next e9 u9 heq9 =>
                have htr := pair_eq_fst hS
                have hres := pair_eq_snd hS
                rw [← htr] at hp
                constructor
                · rcases List.mem_append.mp hp with hp | hp
                  · rcases List.mem_append.mp hp with hp | hp
                    · rcases List.mem_append.mp hp with hp | hp
                      · rcases List.mem_append.mp hp with hp | hp
                        · exact absurd hp H7
                        · exact (mem_save_events d w compose deploy_targets _ p
                              hp).trans (artifactPath_eq d w)
                      · exact absurd hp (pair_eq_fst heq9 ▸
                          no_write_execute_pipeline configs
                            (load_environ w.envFileVals).2 w.sys
                            deploy_tasks p)
                    · exfalso
                      rcases hrm : w.removeOk with _ | _ <;>
                        rw [hrm] at hp <;>
                        simp [remove_file_events] at hp
                  · exact absurd hp (by simp)
                · intro ex'
                  rw [← hres]
                  simp

/-- A completed run wrote the artifact, attempted its removal, and
warned when the removal failed. -/
theorem start_completed_cleanup (d : Deploy) (w : World) (inputs : List String)
    (hc : (start d w inputs).2 = StartResult.completed) :
    Event.fileWrite (artifactPath d w) ∈ (start d w inputs).1
    ∧ Event.removeTry (artifactPath d w) w.removeOk ∈ (start d w inputs).1
    ∧ (w.removeOk = false →
        Event.printMsg "Unable to delete file" ∈ (start d w inputs).1) := by
  rcases hS : start d w inputs with ⟨tr, res⟩
  rw [hS] at hc
  replace hc : res = StartResult.completed := hc
  show Event.fileWrite (artifactPath d w) ∈ tr
    ∧ Event.removeTry (artifactPath d w) w.removeOk ∈ tr
    ∧ (w.removeOk = false → Event.printMsg "Unable to delete file" ∈ tr)
  simp only [start] at hS
  split at hS
  · next e1 ex heq1 =>
    exfalso
    have hnc : res ≠ StartResult.completed := by
      rw [← pair_eq_snd hS]
      exact startCatch_not_completed _ _
    exact hnc hc
  · next e1 u1 heq1 =>
    split at hS
    · next e2 ex heq2 =>
      exfalso
      have hnc : res ≠ StartResult.completed := by
        rw [← pair_eq_snd hS]
        exact startCatch_not_completed _ _
      exact hnc hc
    · next e2 configs heq2 =>
      split at hS
      · next e4 ex heq4 =>
        exfalso
        have hnc : res ≠ StartResult.completed := by
          rw [← pair_eq_snd hS]
          exact startCatch_not_completed _ _
        exact hnc hc
      · next e4 compose heq4 =>
        split at hS
        · next e5 rem5 ex heq5 =>
          exfalso
          have hnc : res ≠ StartResult.completed := by
            rw [← pair_eq_snd hS]
            exact startCatch_not_completed _ _
          exact hnc hc
        · next e5 ins5 deploy_tasks heq5 =>
          split at hS
          · next e6 rem6 ex heq6 =>
            exfalso
            have hnc : res ≠ StartResult.completed := by
              rw [← pair_eq_snd hS]
              exact startCatch_not_completed _ _
            exact hnc hc
          · next e6 ins6 deploy_targets heq6 =>
            split at hS
            · next e7 rem7 ex heq7 =>
              exfalso
              have hnc : res ≠ StartResult.completed := by
                rw [← pair_eq_snd hS]
                exact startCatch_not_completed _ _
              exact hnc hc
            · next e7 rem7 u7 heq7 =>
              split at hS
              · next e9 ex heq9 =>
                exfalso
                rw [← pair_eq_snd hS] at hc
                simp at hc
              · next e9 u9 heq9 =>
                have htr := pair_eq_fst hS
                rw [← htr]
                have hsp : (save_environment_compose d w compose deploy_targets
                    ((dictGet? (load_environ w.envFileVals).2 "env").getD
                      "latest")).2.2 = artifactPath d w :=
                  (save_path d w compose deploy_targets _).trans
                    (artifactPath_eq d w)
                refine ⟨?_, ?_, ?_⟩
                · simp only [List.mem_append]
                  refine Or.inl (Or.inl (Or.inl (Or.inr ?_)))
                  rw [save_events, ← artifactPath_eq d w]
                  exact List.mem_cons_self _ _
                · simp only [List.mem_append]
                  refine Or.inl (Or.inr ?_)
                  rw [hsp]
                  simp [remove_file_events]
                · intro hrm
                  simp only [List.mem_append]
                  refine Or.inl (Or.inr ?_)
                  rw [hsp, hrm]
                  simp [remove_file_events]

theorem execute_pipeline_total (configs : Configs)
    (environ : List (String × String)) (sys : String → Int) :
    ∀ (ts : List String),
      (∀ t ∈ ts, (dictGet? configs.tasks t).isSome = true) →
      (execute_pipeline configs environ sys ts).2 = Except.ok () := by
  intro ts
  induction ts with
  | nil => intro _; rfl
  | cons t0 restTs ih =>
    intro h
    have h0 := h t0 (by simp)
    rcases hDict : dictGet? configs.tasks t0 with _ | subtasks
    · rw [hDict] at h0
      exact absurd h0 (by simp)
    · simp only [execute_pipeline, hDict]
      exact ih (fun t ht => h t (by simp [ht]))

/-- C9 (amended).  Every file write of a run is the single compose
artifact; a completed run wrote it, attempted its removal afterwards
(tolerating a failed removal with a warning), and a run whose exception
handler fired never wrote any file; the pipeline executor itself never
raises as long as every selected task name is a key of the tasks
mapping — individual subtask failures cannot prevent the cleanup.  (A
selection naming a missing task, possible only via caller flags such as
`--task all`, crashes the executor after the write and before the
cleanup: see the counterexample.) -/
theorem compose_artifact_lifecycle (d : Deploy) (w : World)
    (inputs : List String) :
    (∀ p, Event.fileWrite p ∈ (start d w inputs).1 → p = artifactPath d w)
    ∧ ((start d w inputs).2 = StartResult.completed →
        Event.fileWrite (artifactPath d w) ∈ (start d w inputs).1
        ∧ Event.removeTry (artifactPath d w) w.removeOk ∈ (start d w inputs).1
        ∧ (w.removeOk = false →
            Event.printMsg "Unable to delete file" ∈ (start d w inputs).1))
    ∧ (∀ ex, (start d w inputs).2 = StartResult.interrupted ex →
        ∀ p, Event.fileWrite p ∉ (start d w inputs).1)
    ∧ (∀ (configs : Configs) (environ : List (String × String))
          (sys : String → Int) (ts : List String),
        (∀ t ∈ ts, (dictGet? configs.tasks t).isSome = true) →
        (execute_pipeline configs environ sys ts).2 = Except.ok ()) := by
  refine ⟨fun p hp => (start_write_characterization d w inputs p hp).1,
    start_completed_cleanup d w inputs, ?_, ?_⟩
  · intro ex hex p hp
    exact (start_write_characterization d w inputs p hp).2 ex hex
  · intro configs environ sys ts h
    exact execute_pipeline_total configs environ sys ts h

/-- Configuration of the C9 counterexample and witness: a single task
`deploy` with one echo step. -/
def cxConfigsC9 : Configs :=
  { tasks := [("deploy", [{ title := "t", pipeline := [[Frag.lit "echo hi"]] }])] }

/-- Flags of the C9 counterexample: `--task all --target web`. -/
def cxDeployC9 : Deploy := { tasks := ["all"], targets := ["web"], silent := true }

/-- World of the C9 counterexample. -/
def cxWorldC9 : World :=
  { configFile := some cxConfigsC9
    composeRendered := some { services := [("web", {})] } }

/-- C9 counterexample: with `--task all` the run reaches the write step
and writes the artifact, but `configs.tasks["all"]` raises `KeyError`
inside the pipeline executor, so the run crashes and no removal is ever
attempted — the artifact is left behind. -/
theorem start_missing_cleanup_counterexample :
    ((start cxDeployC9 cxWorldC9 []).1.any isWriteEv) = true
    ∧ ((start cxDeployC9 cxWorldC9 []).1.all (fun e => !isRemoveEv e)) = true
    ∧ (start cxDeployC9 cxWorldC9 []).2
        = StartResult.crashed RunExn.keyError := by decide

/-- Flags of the C9 witness: a valid selection. -/
def cxDeployC9ok : Deploy :=
  { tasks := ["deploy"], targets := ["web"], silent := true }

/-- World of the C9 witness: removal fails, which must only warn. -/
def cxWorldC9ok : World :=
  { configFile := some cxConfigsC9
    composeRendered := some { services := [("web", {})] }
    removeOk := false }

/-- C9 witness: a completed run that wrote the artifact and attempted
its removal even though the removal failed. -/
theorem compose_artifact_lifecycle_witness :
    Event.fileWrite (artifactPath cxDeployC9ok cxWorldC9ok)
        ∈ (start cxDeployC9ok cxWorldC9ok []).1
    ∧ Event.removeTry (artifactPath cxDeployC9ok cxWorldC9ok) false
        ∈ (start cxDeployC9ok cxWorldC9ok []).1 :=
  have h := (compose_artifact_lifecycle cxDeployC9ok cxWorldC9ok []).2.1
    (by decide)
  ⟨h.1, h.2.1⟩

end PyDeployHelp
